import Mathlib

/-!
Verification of the Podcastr content query/aggregation layer.

The definitions below are a shallow embedding of the Convex handler file
(`createPodcast`, `updatePodcast`, `getPodcastByVoiceType`, `getAllPodcasts`,
`getPodcastById`, `getPodcastByCategoryType`, `getTrendingPodcasts`,
`getPodcastByAuthorId`, `getPodcastBySearch`, `updatePodcastViews`,
`deletePodcast`) and of the `Discover` component's category rendering.

The document store is modelled as a list of podcast records in insertion
order, plus the set of live binary-storage references.  The Convex context is
modelled by passing the optional authenticated identity explicitly.  The
hosted full-text index is an oracle parameter `searchIdx : field → term →
relevance-ordered matches`.  Fallible handlers return `Except String`, the
error string being the `ConvexError` message thrown by the source.
-/

/-- A podcast document, with the exact field set inserted by `createPodcast`.
`views` and `audioDuration` are modelled as `Nat` (the spec fixes both
non-negative). -/
structure Podcast where
  _id : String
  podcastTitle : String
  podcastDescription : String
  audioUrl : String
  imageUrl : String
  voicePrompt : String
  imagePrompt : String
  voiceType : String
  categoryType : String
  views : Nat
  audioDuration : Nat
  audioStorageId : String
  imageStorageId : String
  author : String
  authorId : String
  authorImageUrl : String
  user : String
  deriving Repr, DecidableEq

/-- The authenticated identity supplied by the auth provider
(`ctx.auth.getUserIdentity`); the handlers only consult its email claim. -/
structure Identity where
  email : String
  deriving Repr, DecidableEq

/-- The backing store: the `podcasts` collection in insertion order (Convex
`order("desc")` is descending creation order, i.e. the reverse of this list)
and the ids of the binary assets currently held by `ctx.storage`. -/
structure DB where
  podcasts : List Podcast
  storage : List String
  deriving Repr, DecidableEq

/-- `ctx.db.get(id)` on the podcasts collection. -/
def dbGet (db : DB) (podcastId : String) : Option Podcast :=
  db.podcasts.find? (fun p => p._id == podcastId)

/-- Handler of the `getAllPodcasts` query: all records, descending creation
order. -/
def getAllPodcasts (db : DB) : List Podcast :=
  db.podcasts.reverse

/-- Handler of the `getPodcastById` query: a plain `ctx.db.get`. -/
def getPodcastById (db : DB) (podcastId : String) : Option Podcast :=
  dbGet db podcastId

/-- The comparator of `getTrendingPodcasts`: `(a, b) => b.views - a.views`
orders by view count descending. -/
def viewsGE (a b : Podcast) : Prop :=
  b.views ≤ a.views

instance : DecidableRel viewsGE := fun a b => Nat.decLe _ _

instance : IsTotal Podcast viewsGE :=
  ⟨fun a b => Nat.le_total b.views a.views⟩

instance : IsTrans Podcast viewsGE :=
  ⟨fun _ _ _ h h' => Nat.le_trans h' h⟩

/-- Handler of the `getTrendingPodcasts` query: collect every record, sort by
`views` descending, `slice(0, 8)`. -/
def getTrendingPodcasts (db : DB) : List Podcast :=
  (db.podcasts.insertionSort viewsGE).take 8

/-- C2: the Trending Ranker's output has length `min(8, total records)`, is
sorted by view count descending, and with fewer than 8 records it is exactly
a rearrangement of the full record set (no padding). -/
theorem getTrendingPodcasts_spec (db : DB) :
    (getTrendingPodcasts db).length = min 8 db.podcasts.length ∧
    (getTrendingPodcasts db).Sorted viewsGE ∧
    (db.podcasts.length < 8 → (getTrendingPodcasts db).Perm db.podcasts) := by
  have hperm : (db.podcasts.insertionSort viewsGE).Perm db.podcasts :=
    List.perm_insertionSort viewsGE db.podcasts
  have hlen : (db.podcasts.insertionSort viewsGE).length = db.podcasts.length :=
    hperm.length_eq
  refine ⟨?_, ?_, ?_⟩
  · simp [getTrendingPodcasts, List.length_take, hlen]
  · exact List.Pairwise.sublist (List.take_sublist 8 _)
      (List.sorted_insertionSort viewsGE db.podcasts)
  · intro hlt
    have htake : (db.podcasts.insertionSort viewsGE).take 8
        = db.podcasts.insertionSort viewsGE :=
      List.take_of_length_le (by omega)
    simpa [getTrendingPodcasts, htake] using hperm

/-- Witness for C2 on a concrete two-record store. -/
theorem getTrendingPodcasts_spec_witness :
    let p₁ : Podcast :=
      ⟨"p1", "t1", "d1", "a1", "i1", "vp1", "ip1", "alloy", "comedy",
        3, 10, "as1", "is1", "Ann", "u1", "", "usr1"⟩
    let p₂ : Podcast :=
      ⟨"p2", "t2", "d2", "a2", "i2", "vp2", "ip2", "nova", "music",
        7, 20, "as2", "is2", "Bob", "u2", "", "usr2"⟩
    let db : DB := ⟨[p₁, p₂], []⟩
    (getTrendingPodcasts db).length = min 8 db.podcasts.length ∧
    (getTrendingPodcasts db).Sorted viewsGE ∧
    (db.podcasts.length < 8 → (getTrendingPodcasts db).Perm db.podcasts) := by
  exact getTrendingPodcasts_spec _

/-- JavaScript string `||`: a non-empty string is truthy and short-circuits,
an empty string yields the right operand. -/
def jsOr (a b : String) : String :=
  if a = "" then b else a

/-- The field actually queried by the third search step: the source writes
`q.search("podcastDescription" || "podcastTitle", args.search)`, and JS `||`
on the non-empty literal evaluates to `"podcastDescription"`. -/
def searchBodyField : String :=
  jsOr "podcastDescription" "podcastTitle"

/-- Handler of the `getPodcastBySearch` query.  `searchIdx field term` is the
hosted full-text index: the relevance-ordered matches of `term` against
`field`; `take 10` is the explicit result cap of each lookup. -/
def getPodcastBySearch (db : DB) (searchIdx : String → String → List Podcast)
    (search : String) : List Podcast :=
  if search = "" then
    getAllPodcasts db
  else
    let authorSearch := (searchIdx "author" search).take 10
    if authorSearch.length > 0 then
      authorSearch
    else
      let titleSearch := (searchIdx "podcastTitle" search).take 10
      if titleSearch.length > 0 then
        titleSearch
      else
        (searchIdx searchBodyField search).take 10

/-- C1: on the empty term the search resolver returns the full listing in
descending creation order; otherwise it returns exactly one of the three
per-field result lists (each capped at 10), in author → title → description
priority, the first non-empty one winning and the description result being
returned whether empty or not — never a union of two fields. -/
theorem getPodcastBySearch_spec (db : DB)
    (searchIdx : String → String → List Podcast) (search : String) :
    let authorSearch := (searchIdx "author" search).take 10
    let titleSearch := (searchIdx "podcastTitle" search).take 10
    let bodySearch := (searchIdx "podcastDescription" search).take 10
    let res := getPodcastBySearch db searchIdx search
    authorSearch.length ≤ 10 ∧ titleSearch.length ≤ 10 ∧
    bodySearch.length ≤ 10 ∧
    (search = "" → res = db.podcasts.reverse) ∧
    (search ≠ "" →
      (res = authorSearch ∨ res = titleSearch ∨ res = bodySearch) ∧
      (authorSearch ≠ [] → res = authorSearch) ∧
      (authorSearch = [] → titleSearch ≠ [] → res = titleSearch) ∧
      (authorSearch = [] → titleSearch = [] → res = bodySearch)) := by
  intro authorSearch titleSearch bodySearch res
  have hbody : searchBodyField = "podcastDescription" := rfl
  refine ⟨List.length_take_le 10 _, List.length_take_le 10 _,
    List.length_take_le 10 _, ?_, ?_⟩
  · intro h
    simp [res, getPodcastBySearch, h, getAllPodcasts]
  · intro hne
    have hA : res = if authorSearch.length > 0 then authorSearch
        else if titleSearch.length > 0 then titleSearch else bodySearch := by
      simp [res, getPodcastBySearch, hne, hbody, authorSearch, titleSearch,
        bodySearch]
    by_cases ha : authorSearch.length > 0
    · have : res = authorSearch := by simp [hA, ha]
      refine ⟨Or.inl this, fun _ => this, ?_, ?_⟩
      · intro hae
        exact absurd (by simp [hae] : authorSearch.length = 0) (by omega)
      · intro hae
        exact absurd (by simp [hae] : authorSearch.length = 0) (by omega)
    · have hae : authorSearch = [] := List.length_eq_zero.mp (by omega)
      by_cases ht : titleSearch.length > 0
      · have : res = titleSearch := by simp [hA, ha, ht]
        refine ⟨Or.inr (Or.inl this), ?_, fun _ _ => this, ?_⟩
        · intro h; exact absurd hae h
        · intro _ hte
          exact absurd (by simp [hte] : titleSearch.length = 0) (by omega)
      · have : res = bodySearch := by simp [hA, ha, ht]
        refine ⟨Or.inr (Or.inr this), ?_, ?_, fun _ _ => this⟩
        · intro h; exact absurd hae h
        · intro _ h
          exact absurd (List.length_eq_zero.mp (by omega)) h

/-- Witness for C1: a concrete index on which the author lookup is empty and
the title lookup non-empty, exercised at a non-empty term. -/
theorem getPodcastBySearch_spec_witness :
    let p : Podcast :=
      ⟨"p3", "jazz hour", "about jazz", "a3", "i3", "vp3", "ip3", "echo",
        "music", 1, 5, "as3", "is3", "Cam", "u3", "", "usr3"⟩
    let idx : String → String → List Podcast :=
      fun field _ => if field = "podcastTitle" then [p] else []
    let db : DB := ⟨[p], []⟩
    getPodcastBySearch db idx "jazz" = [p] := by
  intro p idx db
  have h := getPodcastBySearch_spec db idx "jazz"
  have h₂ := (h.2.2.2.2 (by decide)).2.2.1
  simpa [idx] using h₂ (by simp [idx]) (by simp [idx])

/-- Handler of the `getPodcastByAuthorId` query: filter on `authorId`, then
`reduce((sum, podcast) => sum + podcast.views, 0)`; returns the record list
together with the total as `listeners`. -/
def getPodcastByAuthorId (db : DB) (authorId : String) :
    List Podcast × Nat :=
  let podcasts := db.podcasts.filter (fun p => p.authorId == authorId)
  let totalListeners := podcasts.foldl (fun sum p => sum + p.views) 0
  (podcasts, totalListeners)

/-- The left fold of the source's `reduce` computes the arithmetic sum of the
`views` fields. -/
theorem foldl_views_eq_sum (l : List Podcast) (acc : Nat) :
    l.foldl (fun sum p => sum + p.views) acc
      = acc + (l.map Podcast.views).sum := by
  induction l generalizing acc with
  | nil => simp
  | cons p l ih => simp [ih, Nat.add_assoc]

/-- C6: the author-statistics result holds exactly the records whose
`authorId` matches, and a total equal to the arithmetic sum of their `views`;
with no matching record it is the empty list with total 0. -/
theorem getPodcastByAuthorId_spec (db : DB) (authorId : String) :
    (∀ p, p ∈ (getPodcastByAuthorId db authorId).1 ↔
      p ∈ db.podcasts ∧ p.authorId = authorId) ∧
    (getPodcastByAuthorId db authorId).2
      = ((getPodcastByAuthorId db authorId).1.map Podcast.views).sum ∧
    ((∀ p ∈ db.podcasts, p.authorId ≠ authorId) →
      getPodcastByAuthorId db authorId = ([], 0)) := by
  refine ⟨?_, ?_, ?_⟩
  · intro p
    simp [getPodcastByAuthorId, List.mem_filter]
  · simpa [getPodcastByAuthorId] using
      foldl_views_eq_sum (db.podcasts.filter (fun p => p.authorId == authorId)) 0
  · intro hnone
    have hfilter : db.podcasts.filter (fun p => p.authorId == authorId) = [] := by
      refine List.filter_eq_nil.mpr ?_
      intro p hp
      simpa using hnone p hp
    simp [getPodcastByAuthorId, hfilter]

/-- Witness for C6: an author with no records yields `([], 0)`. -/
theorem getPodcastByAuthorId_spec_witness :
    let p : Podcast :=
      ⟨"p4", "t4", "d4", "a4", "i4", "vp4", "ip4", "onyx", "arts",
        4, 9, "as4", "is4", "Dee", "u4", "", "usr4"⟩
    let db : DB := ⟨[p], []⟩
    getPodcastByAuthorId db "nobody" = ([], 0) := by
  intro p db
  exact (getPodcastByAuthorId_spec db "nobody").2.2 (by decide)

/-- The fixed ordered category list of the `Discover` component. -/
def podcastCategories : List String :=
  ["business", "technology", "comedy", "education", "hobbies",
   "government", "mental health", "family", "music", "politics",
   "spirituality", "culture", "arts"]

/-- Handler of the `getPodcastByCategoryType` query: one filter on
`categoryType` per call; the source wraps the list as `{ podcasts }`. -/
def getPodcastByCategoryType (db : DB) (categoryType : String) :
    List Podcast :=
  db.podcasts.filter (fun p => p.categoryType == categoryType)

/-- The per-category lists assembled by `Discover`'s `fetchCategoryPodcasts`:
each fetched record gets `imageUrl: podcast.imageUrl || ''`. -/
def categoryPodcastsMap (db : DB) (categoryType : String) : List Podcast :=
  (getPodcastByCategoryType db categoryType).map
    (fun p => { p with imageUrl := jsOr p.imageUrl "" })

/-- The category sections `Discover` actually renders: a section appears for
a label exactly when `categoryPodcasts[categoryType]?.length > 0`. -/
def renderedSections (db : DB) : List String :=
  podcastCategories.filter (fun c => (categoryPodcastsMap db c).length > 0)

/-- C8: a label of the fixed 13-label set with zero matching records is
mapped to the empty list and the rendered output has no section for it. -/
theorem renderedSections_spec (db : DB) (label : String)
    (hmem : label ∈ podcastCategories)
    (hnone : ∀ p ∈ db.podcasts, p.categoryType ≠ label) :
    categoryPodcastsMap db label = [] ∧ label ∉ renderedSections db := by
  have hfilter : db.podcasts.filter (fun p => p.categoryType == label) = [] := by
    refine List.filter_eq_nil.mpr ?_
    intro p hp
    simpa using hnone p hp
  have hempty : categoryPodcastsMap db label = [] := by
    simp [categoryPodcastsMap, getPodcastByCategoryType, hfilter]
  refine ⟨hempty, ?_⟩
  intro hmemSec
  have := (List.mem_filter.mp hmemSec).2
  simp [hempty] at this

/-- Witness for C8: a store whose only record is a music podcast renders no
section for the comedy label. -/
theorem renderedSections_spec_witness :
    let p : Podcast :=
      ⟨"p5", "t5", "d5", "a5", "i5", "vp5", "ip5", "fable", "music",
        2, 7, "as5", "is5", "Eve", "u5", "", "usr5"⟩
    let db : DB := ⟨[p], []⟩
    categoryPodcastsMap db "comedy" = [] ∧ "comedy" ∉ renderedSections db := by
  intro p db
  exact renderedSections_spec db "comedy" (by decide) (by decide)

/-- Handler of the `updatePodcastViews` mutation: read the record (throwing
`Podcast not found` when absent), then `patch(id, { views: views + 1 })`. -/
def updatePodcastViews (db : DB) (podcastId : String) : Except String DB :=
  match dbGet db podcastId with
  | none => Except.error "Podcast not found"
  | some podcast =>
      Except.ok { db with podcasts := db.podcasts.map (fun p =>
        if p._id == podcastId then { p with views := podcast.views + 1 }
        else p) }

/-- Reading back a record after a views-only patch yields the patched copy of
whatever `find?` returned before. -/
theorem find?_map_patchViews (l : List Podcast) (podcastId : String) (w : Nat) :
    (l.map (fun p => if p._id == podcastId then { p with views := w } else p)).find?
        (fun p => p._id == podcastId)
      = Option.map (fun p => { p with views := w })
          (l.find? (fun p => p._id == podcastId)) := by
  induction l with
  | nil => simp
  | cons p l ih =>
    by_cases h : p._id = podcastId
    · simp [h]
    · simp [h, -List.find?_map] at ih ⊢
      exact ih

/-- C3: incrementing views on a record whose `views` equals `v` succeeds and
the record reads back with `views = v + 1`; incrementing an absent id fails
with the NotFound error, producing no new store state. -/
theorem updatePodcastViews_spec (db : DB) (podcastId : String)
    (p : Podcast) (v : Nat) :
    (dbGet db podcastId = some p → p.views = v →
      ∃ db', updatePodcastViews db podcastId = Except.ok db' ∧
        dbGet db' podcastId = some { p with views := v + 1 }) ∧
    (dbGet db podcastId = none →
      updatePodcastViews db podcastId = Except.error "Podcast not found") := by
  constructor
  · intro hget hv
    refine ⟨{ db with podcasts := db.podcasts.map (fun q =>
        if q._id == podcastId then { q with views := p.views + 1 } else q) },
      ?_, ?_⟩
    · simp [updatePodcastViews, hget]
    · simp only [dbGet] at hget ⊢
      rw [find?_map_patchViews, hget, hv]
      rfl
  · intro hget
    simp [updatePodcastViews, hget]

/-- Witness for C3: on a store holding a record with `views = 5` the
increment yields `views = 6`, and an unknown id fails with NotFound. -/
theorem updatePodcastViews_spec_witness :
    let p : Podcast :=
      ⟨"p6", "t6", "d6", "a6", "i6", "vp6", "ip6", "shimmer", "family",
        5, 11, "as6", "is6", "Flo", "u6", "", "usr6"⟩
    let db : DB := ⟨[p], []⟩
    (∃ db', updatePodcastViews db "p6" = Except.ok db' ∧
      dbGet db' "p6" = some { p with views := 6 }) ∧
    updatePodcastViews db "missing" = Except.error "Podcast not found" := by
  intro p db
  exact ⟨(updatePodcastViews_spec db "p6" p 5).1 (by decide) (by decide),
    (updatePodcastViews_spec db "missing" p 5).2 (by decide)⟩

/-- Every field of `b` other than `views` agrees with `a`. -/
def sameExceptViews (a b : Podcast) : Prop :=
  a._id = b._id ∧ a.podcastTitle = b.podcastTitle ∧
  a.podcastDescription = b.podcastDescription ∧ a.audioUrl = b.audioUrl ∧
  a.imageUrl = b.imageUrl ∧ a.voicePrompt = b.voicePrompt ∧
  a.imagePrompt = b.imagePrompt ∧ a.voiceType = b.voiceType ∧
  a.categoryType = b.categoryType ∧ a.audioDuration = b.audioDuration ∧
  a.audioStorageId = b.audioStorageId ∧ a.imageStorageId = b.imageStorageId ∧
  a.author = b.author ∧ a.authorId = b.authorId ∧
  a.authorImageUrl = b.authorImageUrl ∧ a.user = b.user

/-- C9: a successful view increment changes only the `views` field: the
storage set, the record count, and every other field of every record
(position by position) are unchanged. -/
theorem updatePodcastViews_frame (db : DB) (podcastId : String) (db' : DB)
    (hok : updatePodcastViews db podcastId = Except.ok db') :
    db'.storage = db.storage ∧
    db'.podcasts.length = db.podcasts.length ∧
    ∀ i (h : i < db.podcasts.length) (h' : i < db'.podcasts.length),
      sameExceptViews (db.podcasts.get ⟨i, h⟩) (db'.podcasts.get ⟨i, h'⟩) := by
  unfold updatePodcastViews at hok
  cases hget : dbGet db podcastId with
  | none => simp [hget] at hok
  | some podcast =>
    simp only [hget] at hok
    have hdb' : db' = { db with podcasts := db.podcasts.map (fun p =>
        if p._id == podcastId then { p with views := podcast.views + 1 }
        else p) } := by
      cases hok
      rfl
    subst hdb'
    refine ⟨rfl, by simp, ?_⟩
    intro i h h'
    have hmap : (db.podcasts.map (fun p =>
        if p._id == podcastId then { p with views := podcast.views + 1 }
        else p)).get ⟨i, h'⟩
        = (fun p => if p._id == podcastId then
            { p with views := podcast.views + 1 } else p)
            (db.podcasts.get ⟨i, by simpa using h'⟩) := by
      simp
    show sameExceptViews _ _
    rw [hmap]
    by_cases hid : ((db.podcasts.get ⟨i, by simpa using h'⟩)._id == podcastId) = true
    · simp only [hid, if_pos]
      exact ⟨rfl, rfl, rfl, rfl, rfl, rfl, rfl, rfl, rfl, rfl, rfl, rfl, rfl,
        rfl, rfl, rfl⟩
    · simp only [hid, if_neg, Bool.false_eq_true, not_false_iff]
      exact ⟨rfl, rfl, rfl, rfl, rfl, rfl, rfl, rfl, rfl, rfl, rfl, rfl, rfl,
        rfl, rfl, rfl⟩

/-- Witness for C9 on a one-record store. -/
theorem updatePodcastViews_frame_witness :
    let p : Podcast :=
      ⟨"p7", "t7", "d7", "a7", "i7", "vp7", "ip7", "alloy", "politics",
        9, 12, "as7", "is7", "Gil", "u7", "", "usr7"⟩
    let db : DB := ⟨[p], ["as7", "is7"]⟩
    let db' : DB := ⟨[{ p with views := 10 }], ["as7", "is7"]⟩
    db'.storage = db.storage ∧
    db'.podcasts.length = db.podcasts.length ∧
    ∀ i (h : i < db.podcasts.length) (h' : i < db'.podcasts.length),
      sameExceptViews (db.podcasts.get ⟨i, h⟩) (db'.podcasts.get ⟨i, h'⟩) := by
  intro p db db'
  exact updatePodcastViews_frame db "p7" db' (by rfl)

/-- Handler of the `getPodcastByVoiceType` query: `ctx.db.get` on the queried
id (possibly absent), then a filter comparing each record's `voiceType` with
`podcast?.voiceType` (an optional value) and requiring `_id ≠ podcastId`. -/
def getPodcastByVoiceType (db : DB) (podcastId : String) : List Podcast :=
  let podcast := dbGet db podcastId
  db.podcasts.filter (fun p =>
    (some p.voiceType == Option.map Podcast.voiceType podcast) &&
      (p._id != podcastId))

/-- C10: when the queried podcast exists, every record the similarity query
returns has the queried podcast's `voiceType`, and the queried podcast itself
is never in the result. -/
theorem getPodcastByVoiceType_spec (db : DB) (podcastId : String)
    (q : Podcast) (hget : dbGet db podcastId = some q) :
    ∀ r ∈ getPodcastByVoiceType db podcastId,
      r.voiceType = q.voiceType ∧ r._id ≠ podcastId := by
  intro r hr
  have hmem := List.mem_filter.mp hr
  have hpred := hmem.2
  simp [hget] at hpred
  exact hpred

/-- Witness for C10 on a two-record store sharing one voice type. -/
theorem getPodcastByVoiceType_spec_witness :
    let p₁ : Podcast :=
      ⟨"p8", "t8", "d8", "a8", "i8", "vp8", "ip8", "alloy", "culture",
        1, 4, "as8", "is8", "Hal", "u8", "", "usr8"⟩
    let p₂ : Podcast :=
      ⟨"p9", "t9", "d9", "a9", "i9", "vp9", "ip9", "alloy", "culture",
        2, 6, "as9", "is9", "Ida", "u9", "", "usr9"⟩
    let db : DB := ⟨[p₁, p₂], []⟩
    ∀ r ∈ getPodcastByVoiceType db "p8",
      r.voiceType = p₁.voiceType ∧ r._id ≠ "p8" := by
  intro p₁ p₂ db
  exact getPodcastByVoiceType_spec db "p8" p₁ (by decide)

/-- Handler of the `deletePodcast` mutation: read the record (throwing
`Podcast not found` when absent), `ctx.storage.delete` on the two supplied
storage ids, then `ctx.db.delete` on the record.  The handler receives the
request context (including its identity) but never consults the identity. -/
def deletePodcast (db : DB) (identity : Option Identity)
    (podcastId imageStorageId audioStorageId : String) : Except String DB :=
  match dbGet db podcastId with
  | none => Except.error "Podcast not found"
  | some _ =>
      let storage₁ := db.storage.filter (fun s => !(s == imageStorageId))
      let storage₂ := storage₁.filter (fun s => !(s == audioStorageId))
      Except.ok { podcasts := db.podcasts.filter (fun p => !(p._id == podcastId)),
                  storage := storage₂ }

/-- C4: deleting an absent id fails with the NotFound error; deleting an
existing record with its own two storage references succeeds, after which
neither binary asset is in storage and `getPodcastById` on that id is
absent. -/
theorem deletePodcast_spec (db : DB) (identity : Option Identity)
    (podcastId : String) (p : Podcast) :
    (dbGet db podcastId = none → ∀ imageStorageId audioStorageId,
      deletePodcast db identity podcastId imageStorageId audioStorageId
        = Except.error "Podcast not found") ∧
    (dbGet db podcastId = some p →
      ∃ db', deletePodcast db identity podcastId p.imageStorageId
          p.audioStorageId = Except.ok db' ∧
        p.imageStorageId ∉ db'.storage ∧ p.audioStorageId ∉ db'.storage ∧
        getPodcastById db' podcastId = none) := by
  constructor
  · intro hget imageStorageId audioStorageId
    simp [deletePodcast, hget]
  · intro hget
    refine ⟨DB.mk (db.podcasts.filter (fun q => !(q._id == podcastId)))
        ((db.storage.filter (fun s => !(s == p.imageStorageId))).filter
          (fun s => !(s == p.audioStorageId))), ?_, ?_, ?_, ?_⟩
    · simp [deletePodcast, hget]
    · intro hmem
      have := (List.mem_filter.mp (List.mem_filter.mp hmem).1).2
      simp at this
    · intro hmem
      have := (List.mem_filter.mp hmem).2
      simp at this
    · show dbGet _ _ = none
      refine List.find?_eq_none.mpr ?_
      intro x hx
      have := (List.mem_filter.mp hx).2
      simpa using this

/-- Witness for C4: deleting a missing id fails, deleting the only record
removes both assets and the record. -/
theorem deletePodcast_spec_witness :
    let p : Podcast :=
      ⟨"p10", "t10", "d10", "a10", "i10", "vp10", "ip10", "nova", "education",
        6, 30, "asA", "isA", "Joe", "u10", "", "usr10"⟩
    let db : DB := ⟨[p], ["asA", "isA", "other"]⟩
    deletePodcast db (some ⟨"joe@x.io"⟩) "ghost" "isA" "asA"
        = Except.error "Podcast not found" ∧
    ∃ db', deletePodcast db (some ⟨"joe@x.io"⟩) "p10" p.imageStorageId
        p.audioStorageId = Except.ok db' ∧
      p.imageStorageId ∉ db'.storage ∧ p.audioStorageId ∉ db'.storage ∧
      getPodcastById db' "p10" = none := by
  intro p db
  exact ⟨(deletePodcast_spec db (some ⟨"joe@x.io"⟩) "ghost" p).1 (by decide)
      "isA" "asA",
    (deletePodcast_spec db (some ⟨"joe@x.io"⟩) "p10" p).2 (by decide)⟩

/-- The full argument set of the `updatePodcast` mutation (every field is
required by its validator, so each is always supplied). -/
structure UpdateArgs where
  podcastId : String
  podcastTitle : String
  podcastDescription : String
  audioUrl : String
  imageUrl : String
  voicePrompt : String
  imagePrompt : String
  voiceType : String
  categoryType : String
  views : Nat
  audioDuration : Nat
  audioStorageId : String
  imageStorageId : String
  deriving Repr, DecidableEq

/-- The `updates` object built by `updatePodcast` applied to the stored
record: each `if (args.field)` guard adds the field only when it is JS-truthy
(non-empty string, non-zero number); `views` uses `args.views !== undefined`,
which always holds for the required numeric argument, so it is always
written; the two storage reference fields are written unconditionally. -/
def applyUpdates (p : Podcast) (args : UpdateArgs) : Podcast :=
  { p with
    podcastTitle :=
      if args.podcastTitle ≠ "" then args.podcastTitle else p.podcastTitle,
    podcastDescription :=
      if args.podcastDescription ≠ "" then args.podcastDescription
      else p.podcastDescription,
    audioUrl := if args.audioUrl ≠ "" then args.audioUrl else p.audioUrl,
    imageUrl := if args.imageUrl ≠ "" then args.imageUrl else p.imageUrl,
    voicePrompt :=
      if args.voicePrompt ≠ "" then args.voicePrompt else p.voicePrompt,
    imagePrompt :=
      if args.imagePrompt ≠ "" then args.imagePrompt else p.imagePrompt,
    voiceType := if args.voiceType ≠ "" then args.voiceType else p.voiceType,
    categoryType :=
      if args.categoryType ≠ "" then args.categoryType else p.categoryType,
    views := args.views,
    audioDuration :=
      if args.audioDuration ≠ 0 then args.audioDuration else p.audioDuration,
    audioStorageId := args.audioStorageId,
    imageStorageId := args.imageStorageId }

/-- Handler of the `updatePodcast` mutation: throws `User not authenticated`
without an identity, `Podcast not found` when the record is absent, and
otherwise patches the record with the `updates` object.  It performs no
ownership check: the identity is only tested for presence. -/
def updatePodcast (db : DB) (identity : Option Identity) (args : UpdateArgs) :
    Except String DB :=
  match identity with
  | none => Except.error "User not authenticated"
  | some _ =>
      match dbGet db args.podcastId with
      | none => Except.error "Podcast not found"
      | some _ =>
          Except.ok { db with podcasts := db.podcasts.map (fun p =>
            if p._id == args.podcastId then applyUpdates p args else p) }

/-- Reading back a record after an id-preserving single-record patch yields
the patched copy of whatever `find?` returned before. -/
theorem find?_map_update (l : List Podcast) (podcastId : String)
    (f : Podcast → Podcast) (hf : ∀ p, (f p)._id = p._id) :
    (l.map (fun p => if p._id == podcastId then f p else p)).find?
        (fun p => p._id == podcastId)
      = Option.map f (l.find? (fun p => p._id == podcastId)) := by
  induction l with
  | nil => simp
  | cons p l ih =>
    by_cases h : p._id = podcastId
    · simp [h, hf]
    · simp [h, -List.find?_map] at ih ⊢
      exact ih

/-- C7: on a successful update of an existing record, each truthy-guarded
field is overwritten exactly when the supplied value is JS-truthy (a falsy
value — empty string, numeric 0 — leaves the stored value), `views` is the
explicitly admitted exception and is always written, the two storage
reference fields are overwritten unconditionally, and every field outside
the update set keeps its previous value. -/
theorem updatePodcast_spec (db : DB) (i : Identity) (args : UpdateArgs)
    (p : Podcast) (hget : dbGet db args.podcastId = some p) :
    ∃ db', updatePodcast db (some i) args = Except.ok db' ∧
      ∃ q, dbGet db' args.podcastId = some q ∧
        q.podcastTitle = (if args.podcastTitle ≠ "" then args.podcastTitle
          else p.podcastTitle) ∧
        q.podcastDescription = (if args.podcastDescription ≠ "" then
          args.podcastDescription else p.podcastDescription) ∧
        q.audioUrl = (if args.audioUrl ≠ "" then args.audioUrl
          else p.audioUrl) ∧
        q.imageUrl = (if args.imageUrl ≠ "" then args.imageUrl
          else p.imageUrl) ∧
        q.voicePrompt = (if args.voicePrompt ≠ "" then args.voicePrompt
          else p.voicePrompt) ∧
        q.imagePrompt = (if args.imagePrompt ≠ "" then args.imagePrompt
          else p.imagePrompt) ∧
        q.voiceType = (if args.voiceType ≠ "" then args.voiceType
          else p.voiceType) ∧
        q.categoryType = (if args.categoryType ≠ "" then args.categoryType
          else p.categoryType) ∧
        q.views = args.views ∧
        q.audioDuration = (if args.audioDuration ≠ 0 then args.audioDuration
          else p.audioDuration) ∧
        q.audioStorageId = args.audioStorageId ∧
        q.imageStorageId = args.imageStorageId ∧
        q._id = p._id ∧ q.author = p.author ∧ q.authorId = p.authorId ∧
        q.authorImageUrl = p.authorImageUrl ∧ q.user = p.user := by
  refine ⟨{ db with podcasts := db.podcasts.map (fun r =>
      if r._id == args.podcastId then applyUpdates r args else r) }, ?_, ?_⟩
  · simp [updatePodcast, hget]
  · refine ⟨applyUpdates p args, ?_, ?_⟩
    · simp only [dbGet] at hget ⊢
      rw [find?_map_update db.podcasts args.podcastId
        (fun r => applyUpdates r args) (fun r => rfl), hget]
      rfl
    · refine ⟨rfl, rfl, rfl, rfl, rfl, rfl, rfl, rfl, rfl, rfl, rfl, rfl,
        rfl, rfl, rfl, rfl, rfl⟩

/-- Witness for C7: an update supplying an empty title and duration 0 leaves
those stored values; `views` and the storage references are overwritten. -/
theorem updatePodcast_spec_witness :
    let p : Podcast :=
      ⟨"p11", "t11", "d11", "a11", "i11", "vp11", "ip11", "fable", "hobbies",
        4, 25, "asB", "isB", "Kim", "u11", "", "usr11"⟩
    let db : DB := ⟨[p], []⟩
    let args : UpdateArgs :=
      ⟨"p11", "", "new description", "", "", "", "", "", "", 0, 0,
        "asB2", "isB2"⟩
    ∃ db', updatePodcast db (some ⟨"kim@x.io"⟩) args = Except.ok db' ∧
      ∃ q, dbGet db' args.podcastId = some q ∧
        q.podcastTitle = (if args.podcastTitle ≠ "" then args.podcastTitle
          else p.podcastTitle) ∧
        q.podcastDescription = (if args.podcastDescription ≠ "" then
          args.podcastDescription else p.podcastDescription) ∧
        q.audioUrl = (if args.audioUrl ≠ "" then args.audioUrl
          else p.audioUrl) ∧
        q.imageUrl = (if args.imageUrl ≠ "" then args.imageUrl
          else p.imageUrl) ∧
        q.voicePrompt = (if args.voicePrompt ≠ "" then args.voicePrompt
          else p.voicePrompt) ∧
        q.imagePrompt = (if args.imagePrompt ≠ "" then args.imagePrompt
          else p.imagePrompt) ∧
        q.voiceType = (if args.voiceType ≠ "" then args.voiceType
          else p.voiceType) ∧
        q.categoryType = (if args.categoryType ≠ "" then args.categoryType
          else p.categoryType) ∧
        q.views = args.views ∧
        q.audioDuration = (if args.audioDuration ≠ 0 then args.audioDuration
          else p.audioDuration) ∧
        q.audioStorageId = args.audioStorageId ∧
        q.imageStorageId = args.imageStorageId ∧
        q._id = p._id ∧ q.author = p.author ∧ q.authorId = p.authorId ∧
        q.authorImageUrl = p.authorImageUrl ∧ q.user = p.user := by
  intro p db args
  exact updatePodcast_spec db ⟨"kim@x.io"⟩ args p (by decide)

/-- Counterexample to C5: a caller with no authenticated identity deletes an
existing podcast successfully instead of failing with Unauthenticated — the
`deletePodcast` handler never consults the identity. -/
theorem deletePodcast_no_auth_counterexample :
    let p : Podcast :=
      ⟨"p12", "t12", "d12", "a12", "i12", "vp12", "ip12", "echo", "business",
        3, 15, "asC", "isC", "Lou", "u12", "", "usr12"⟩
    let db : DB := ⟨[p], ["isC", "asC"]⟩
    deletePodcast db none "p12" "isC" "asC" = Except.ok ⟨[], []⟩ := by
  rfl

/-- C5 as amended: `updatePodcast` does fail with the Unauthenticated error
for a caller without an identity, but neither mutation checks ownership —
any authenticated caller can update any existing record, and `deletePodcast`
performs no authentication check at all, so any caller (with or without an
identity) can delete any existing record. -/
theorem mutations_auth_spec :
    (∀ db args, updatePodcast db none args
      = Except.error "User not authenticated") ∧
    (∀ db i args p, dbGet db args.podcastId = some p →
      ∃ db', updatePodcast db (some i) args = Except.ok db') ∧
    (∀ db identity podcastId imageStorageId audioStorageId p,
      dbGet db podcastId = some p →
      ∃ db', deletePodcast db identity podcastId imageStorageId audioStorageId
        = Except.ok db') := by
  refine ⟨?_, ?_, ?_⟩
  · intro db args
    rfl
  · intro db i args p hget
    simp only [updatePodcast, hget]
    exact ⟨_, rfl⟩
  · intro db identity podcastId imageStorageId audioStorageId p hget
    simp only [deletePodcast, hget]
    exact ⟨_, rfl⟩

/-- Witness for amended C5: an unauthenticated update fails, while a
non-owner's authenticated update and an unauthenticated delete both
succeed. -/
theorem mutations_auth_spec_witness :
    let p : Podcast :=
      ⟨"p13", "t13", "d13", "a13", "i13", "vp13", "ip13", "onyx", "family",
        2, 18, "asD", "isD", "Mia", "u13", "", "usr13"⟩
    let db : DB := ⟨[p], ["isD", "asD"]⟩
    let args : UpdateArgs :=
      ⟨"p13", "hijacked", "x", "x", "x", "x", "x", "x", "comedy", 0, 1,
        "asD2", "isD2"⟩
    updatePodcast db none args = Except.error "User not authenticated" ∧
    (∃ db', updatePodcast db (some ⟨"attacker@evil.io"⟩) args
      = Except.ok db') ∧
    (∃ db', deletePodcast db none "p13" "isD" "asD" = Except.ok db') := by
  intro p db args
  exact ⟨mutations_auth_spec.1 db args,
    mutations_auth_spec.2.1 db ⟨"attacker@evil.io"⟩ args p (by decide),
    mutations_auth_spec.2.2 db none "p13" "isD" "asD" p (by decide)⟩
